import Mathlib

/-!
Shallow embedding of the distributed training coordinator
(src/coordinator.py) and compute node (src/compute_node.py).

Matrices (numpy 2-D arrays) are lists of rows of rationals; node
addresses are (host, port) pairs; the per-node load mapping is a
function from addresses to integers.  Locks are elided: each locked
Python method becomes one atomic Lean function, and the concurrent
round is modelled by an explicit trace relation (`RoundTrace`) over the
load operations the dispatch threads perform.
-/

namespace DistPA1

/-- A gradient or weight matrix: numpy 2-D arrays as used by the code,
embedded as a list of rows of rationals. -/
abbrev Mat : Type := List (List ℚ)

/-- The numpy shape of a matrix: the list of its row lengths (two
matrices agree in shape exactly when these lists are equal). -/
def mshape (m : Mat) : List Nat := m.map List.length

/-- Elementwise matrix sum of two same-shaped matrices (zipWith of rows). -/
def matAdd (a b : Mat) : Mat := List.zipWith (List.zipWith (· + ·)) a b

/-- Modelled from the spec: `sum_matricies` (ML/ML.py, which is not under
src/): elementwise-add the delta onto the accumulator; when the shapes
mismatch the contribution is dropped (and logged) and the existing sum is
returned untouched. -/
def sum_matricies (acc delta : Mat) : Mat :=
  if mshape delta = mshape acc then matAdd acc delta else acc

/-- Modelled from the spec: `scale_matricies` (ML/ML.py, which is not under
src/): scale every entry of the matrix by the scalar. -/
def scale_matricies (m : Mat) (c : ℚ) : Mat :=
  m.map (fun row => row.map (fun x => c * x))

/-- numpy `zeros_like`: the all-zero matrix of the same shape as `m`
(coordinator.py line 35 resets the accumulator with `np.zeros_like`). -/
def zeros_like (m : Mat) : Mat := m.map (fun row => row.map (fun _ => (0 : ℚ)))

/-- SharedGradient.update (coordinator.py lines 25-27): the state of a
SharedGradient is its gradient matrix (the lock is elided, each method
being atomic); update replaces it by `sum_matricies` of itself and the
local gradient. -/
def SharedGradient.update (gradient local_gradient : Mat) : Mat :=
  sum_matricies gradient local_gradient

/-- SharedGradient.average (coordinator.py lines 29-31): scale the
accumulated gradient by `1 / max(num_jobs, 1)`, preventing division by
zero. -/
def SharedGradient.average (gradient : Mat) (num_jobs : ℤ) : Mat :=
  scale_matricies gradient ((1 : ℚ) / ((max num_jobs 1 : ℤ) : ℚ))

/-- SharedGradient.reset (coordinator.py lines 33-35): zero the
accumulator, keeping its shape. -/
def SharedGradient.reset (gradient : Mat) : Mat := zeros_like gradient

/-- A compute node address: a (host, port) pair, as parsed by
`_load_compute_nodes` (coordinator.py lines 103-114). -/
abbrev NodeAddress : Type := String × ℤ

/-- Errors the embedded Python code can raise.  `noAvailableNode` is the
explicit scheduling error the spec requires for an empty registry; the
code itself never raises it. -/
inductive PyError : Type where
  | indexError : PyError
  | valueError : PyError
  | noAvailableNode : PyError
  | unboundLocalError : PyError
deriving DecidableEq

section Load

variable {α : Type} [DecidableEq α]

/-- CoordinatorHandler._increment_node_load (coordinator.py lines 55-58):
`self.node_load[node] += 1` under the lock. -/
def increment_node_load (node_load : α → ℤ) (node : α) : α → ℤ :=
  fun m => if m = node then node_load m + 1 else node_load m

/-- CoordinatorHandler._decrement_node_load (coordinator.py lines 60-63):
`self.node_load[node] = max(0, self.node_load[node] - 1)` under the lock. -/
def decrement_node_load (node_load : α → ℤ) (node : α) : α → ℤ :=
  fun m => if m = node then max 0 (node_load m - 1) else node_load m

/-- One load-tracker mutation: the only two operations the dispatch code
performs on `node_load`. -/
inductive LoadOp (α : Type) : Type where
  | inc (node : α) : LoadOp α
  | dec (node : α) : LoadOp α

/-- Apply one load operation to the tracked load mapping. -/
def applyLoadOp (node_load : α → ℤ) : LoadOp α → α → ℤ
  | LoadOp.inc n => increment_node_load node_load n
  | LoadOp.dec n => decrement_node_load node_load n

/-- Apply a sequence of load operations left to right. -/
def applyLoadOps (node_load : α → ℤ) : List (LoadOp α) → α → ℤ
  | [] => node_load
  | op :: ops => applyLoadOps (applyLoadOp node_load op) ops

/-- The load-operation traces a round can produce: `RoundTrace pending
inflight ops` holds when `ops` is a possible interleaving of the
dispatch threads' load operations, given the tasks in `pending` not yet
started and those in `inflight` started (incremented) but not finished,
and every task has finished (decremented) by the end of `ops`.  Each
thread (thread_func, coordinator.py lines 65-101) increments its node
once on entry and decrements it once in the `finally` block. -/
inductive RoundTrace : List α → List α → List (LoadOp α) → Prop where
  | nil : RoundTrace [] [] []
  | start (n : α) (pending inflight : List α) (ops : List (LoadOp α)) :
      n ∈ pending → RoundTrace (pending.erase n) (n :: inflight) ops →
      RoundTrace pending inflight (LoadOp.inc n :: ops)
  | finish (n : α) (pending inflight : List α) (ops : List (LoadOp α)) :
      n ∈ inflight → RoundTrace pending (inflight.erase n) ops →
      RoundTrace pending inflight (LoadOp.dec n :: ops)

/-- How the remote section of a dispatch thread can end, as seen from the
coordinator: the node accepted and returned gradients; the node replied
REJECTED; or anything in the `try` block raised (connection, protocol,
or any other exception). -/
inductive RemoteOutcome : Type where
  | accepted (gV gW : Mat) : RemoteOutcome
  | rejected : RemoteOutcome
  | exception : RemoteOutcome

/-- CoordinatorHandler.thread_func (coordinator.py lines 65-101), acting
on the load mapping and the two shared gradients: increment the node's
load, then depending on the remote outcome merge the returned gradients
(ACCEPTED) or drop the contribution (REJECTED or exception), and in
every case decrement the node's load in the `finally` block. -/
def thread_func (node_load : α → ℤ) (node : α) (outcome : RemoteOutcome)
    (shared_gradient_V shared_gradient_W : Mat) : (α → ℤ) × Mat × Mat :=
  let load1 := increment_node_load node_load node
  match outcome with
  | RemoteOutcome.accepted gV gW =>
      (decrement_node_load load1 node,
        SharedGradient.update shared_gradient_V gV,
        SharedGradient.update shared_gradient_W gW)
  | RemoteOutcome.rejected =>
      (decrement_node_load load1 node, shared_gradient_V, shared_gradient_W)
  | RemoteOutcome.exception =>
      (decrement_node_load load1 node, shared_gradient_V, shared_gradient_W)

/-- Python `random.choice(xs)`: pick the element at the drawn index; on an
empty sequence it raises IndexError.  The drawn index is passed in as `i`
(reduced modulo the length, as `random.choice` never goes out of range). -/
def random_choice (xs : List α) (i : ℕ) : Except PyError α :=
  match xs with
  | [] => Except.error PyError.indexError
  | x :: rest => Except.ok ((x :: rest).getD (i % (rest.length + 1)) x)

/-- Python `min(node_load, key=node_load.get)` starting from a first
candidate `best`: scan the remaining keys in iteration order, replacing
the best only on a strictly smaller load, so the first key attaining the
minimum wins.  Dict iteration order is insertion order, which is the
registry order of `compute_nodes`. -/
def selectMinFrom (node_load : α → ℤ) (best : α) : List α → α
  | [] => best
  | x :: xs => selectMinFrom node_load (if node_load x < node_load best then x else best) xs

/-- CoordinatorHandler._select_compute_node (coordinator.py lines 45-53):
policy 1 is `random.choice(self.compute_nodes)`; any other policy takes
`min(self.node_load, key=self.node_load.get)`.  On an empty registry the
former raises IndexError and the latter ValueError (`min()` of an empty
sequence); no explicit NoAvailableNode error exists in the code. -/
def select_compute_node (scheduling_policy : ℤ) (compute_nodes : List α)
    (node_load : α → ℤ) (i : ℕ) : Except PyError α :=
  if scheduling_policy = 1 then random_choice compute_nodes i
  else
    match compute_nodes with
    | [] => Except.error PyError.valueError
    | x :: xs => Except.ok (selectMinFrom node_load x xs)

end Load

/-- The Thrift TaskStatus values used by the node service. -/
inductive TaskStatus : Type where
  | accepted : TaskStatus
  | rejected : TaskStatus
deriving DecidableEq

/-- ComputeNodeHandler._should_accept_task (compute_node.py lines 28-30):
`random.random() >= self.load_probability`, where `u` is the uniform
sample drawn in [0,1). -/
def should_accept_task (load_probability u : ℚ) : Bool :=
  decide (load_probability ≤ u)

/-- The admission gate's verdict on one initialize request: REJECTED
exactly when `_should_accept_task` returns false (compute_node.py
lines 34-35). -/
def admission_verdict (load_probability u : ℚ) : TaskStatus :=
  if should_accept_task load_probability u then TaskStatus.accepted
  else TaskStatus.rejected

/-- ComputeNodeHandler.initializeTraining (compute_node.py lines 32-43):
reject when the admission gate rejects; otherwise initialize the local
trainer and return ACCEPTED exactly when that initialization succeeded
(`init_success` is the boolean `init_training_model` returns; the
synthetic delay of `_inject_load` has no effect on the reply). -/
def initializeTraining (load_probability u : ℚ) (init_success : Bool) : TaskStatus :=
  if ¬ should_accept_task load_probability u then TaskStatus.rejected
  else if init_success then TaskStatus.accepted else TaskStatus.rejected

/-- The gradient-and-weight effect of one round's dispatched tasks
(coordinator.py lines 150-160 joined with thread_func): each entry of
`results` is `some (gV, gW)` when that task's node accepted and returned
gradients, `none` when it was rejected or failed; successful gradients
are folded into the two accumulators. -/
def run_tasks (results : List (Option (Mat × Mat))) (sV sW : Mat) : Mat × Mat :=
  results.foldl
    (fun st r =>
      match r with
      | some g => (SharedGradient.update st.1 g.1, SharedGradient.update st.2 g.2)
      | none => st)
    (sV, sW)

/-- The averaged pair of gradients a round produces (coordinator.py
lines 162-163): accumulate the successful results into freshly reset
accumulators shaped like the weight snapshot, then average by the number
of dispatched jobs (`len(work_queue)` = `results.length`). -/
def round_avg (V W : Mat) (results : List (Option (Mat × Mat))) : Mat × Mat :=
  let acc := run_tasks results (zeros_like V) (zeros_like W)
  (SharedGradient.average acc.1 (results.length : ℤ),
    SharedGradient.average acc.2 (results.length : ℤ))

/-- Modelled from the spec: `mlp.update_weights` (ML/ML.py, which is not
under src/): apply the aggregated update to the model, weights +=
averaged gradient, elementwise per tensor. -/
def update_weights (V W dV dW : Mat) : Mat × Mat := (matAdd V dV, matAdd W dW)

/-- The UPDATED phase of a round (coordinator.py lines 165-176), over
whatever averaged gradients arrive: if both averaged shapes match the
pre-round weight shapes apply `update_weights`, else skip the update and
keep the prior weights. -/
def updated_phase (V W avg_gradient_V avg_gradient_W : Mat) : Mat × Mat :=
  if mshape avg_gradient_W = mshape W ∧ mshape avg_gradient_V = mshape V then
    update_weights V W avg_gradient_V avg_gradient_W
  else (V, W)

/-- One training round of CoordinatorHandler.train (coordinator.py
lines 141-180): reset the accumulators, run the dispatched tasks, join,
average; if both averaged shapes match the pre-round weight shapes apply
`update_weights`, else skip the update and keep the prior weights; then
validate the (possibly updated) model.  The trainer's validation is the
abstract function `validate` of the current weights (ML/ML.py is not
under src/). -/
def train_round (validate : Mat → Mat → ℚ) (V W : Mat)
    (results : List (Option (Mat × Mat))) : (Mat × Mat) × ℚ :=
  let avg := round_avg V W results
  let updated := updated_phase V W avg.1 avg.2
  (updated, validate updated.1 updated.2)

/-- One iteration of the `for r in range(rounds)` loop of train
(coordinator.py lines 137-180), threading the weights and the last
assigned value of the local variable `val_error` (none while it has
never been assigned). -/
def train_loop_step (validate : Mat → Mat → ℚ)
    (round_results : ℕ → List (Option (Mat × Mat)))
    (st : (Mat × Mat) × Option ℚ) (r : ℕ) : (Mat × Mat) × Option ℚ :=
  let step := train_round validate st.1.1 st.1.2 (round_results r)
  (step.1, some step.2)

/-- CoordinatorHandler.train (coordinator.py lines 116-185): on failed
model initialization return the sentinel -1; otherwise run the round
loop and then `return val_error`, which raises UnboundLocalError when
the loop body never executed (`val_error` read without ever being
assigned).  `round_results` gives each round's per-task outcomes. -/
def train (validate : Mat → Mat → ℚ) (init_success : Bool) (V W : Mat)
    (rounds : ℕ) (round_results : ℕ → List (Option (Mat × Mat))) :
    Except PyError ℚ :=
  if init_success = false then Except.ok (-1)
  else
    match ((List.range rounds).foldl (train_loop_step validate round_results)
        ((V, W), (none : Option ℚ))).2 with
    | none => Except.error PyError.unboundLocalError
    | some val_error => Except.ok val_error

/-- Applying any sequence of load operations to a nonnegative load
mapping keeps every count nonnegative: increments add one, decrements
floor at zero. -/
theorem applyLoadOps_nonneg {α : Type} [DecidableEq α] (ops : List (LoadOp α)) :
    ∀ node_load : α → ℤ, (∀ m, 0 ≤ node_load m) → ∀ n, 0 ≤ applyLoadOps node_load ops n := by
  induction ops with
  | nil => intro node_load h n; exact h n
  | cons op ops ih =>
      intro node_load h n
      refine ih _ ?_ n
      intro m
      cases op with
      | inc k =>
          simp only [applyLoadOp, increment_node_load]
          by_cases hm : m = k
          · simp only [if_pos hm]
            have := h m
            omega
          · simp only [if_neg hm]
            exact h m
      | dec k =>
          simp only [applyLoadOp, decrement_node_load]
          by_cases hm : m = k
          · simp only [if_pos hm]
            exact le_max_left 0 _
          · simp only [if_neg hm]
            exact h m

/-- C2: feeding a delta whose shape mismatches the accumulator's shape
into `SharedGradient.update` drops the contribution and leaves the
existing sum untouched, for every accumulator state and every
wrong-shaped delta. -/
theorem C2_update_drops_mismatched_delta (gradient delta : Mat)
    (h : mshape delta ≠ mshape gradient) :
    SharedGradient.update gradient delta = gradient := by
  simp [SharedGradient.update, sum_matricies, h]

/-- Witness for C2 at a concrete input: a 1×1 delta fed into a 2×2
accumulator is dropped. -/
theorem C2_update_drops_mismatched_delta_witness :
    SharedGradient.update [[1, 2], [3, 4]] [[(5 : ℚ)]] = [[1, 2], [3, 4]] :=
  C2_update_drops_mismatched_delta [[1, 2], [3, 4]] [[5]] (by decide)

/-- C3: with the registry empty at scheduling time, `_select_compute_node`
fails through the unguarded lookup itself — IndexError from
`random.choice` under the RANDOM policy, ValueError from `min` under
LEAST_LOADED — and never raises the explicit NoAvailableNode error the
spec requires. -/
theorem C3_empty_registry_unguarded_lookup :
    (∀ (node_load : NodeAddress → ℤ) (i : ℕ),
        select_compute_node 1 [] node_load i = Except.error PyError.indexError) ∧
    (∀ (node_load : NodeAddress → ℤ) (i : ℕ),
        select_compute_node 0 [] node_load i = Except.error PyError.valueError) ∧
    (∀ (scheduling_policy : ℤ) (node_load : NodeAddress → ℤ) (i : ℕ),
        select_compute_node scheduling_policy [] node_load i ≠
          Except.error PyError.noAvailableNode) := by
  refine ⟨fun node_load i => rfl, fun node_load i => rfl,
    fun scheduling_policy node_load i => ?_⟩
  by_cases h : scheduling_policy = 1 <;>
    simp [select_compute_node, random_choice, h]

/-- C6: the load tracker's decrement floors at zero — a decrement with no
matching prior increment leaves the count at 0 — and consequently every
sequence of increment/decrement operations starting from the all-zero
mapping keeps every node's tracked count nonnegative. -/
theorem C6_load_counts_nonneg :
    (∀ (node_load : NodeAddress → ℤ) (n : NodeAddress),
        node_load n = 0 → decrement_node_load node_load n n = 0) ∧
    (∀ (ops : List (LoadOp NodeAddress)) (n : NodeAddress),
        0 ≤ applyLoadOps (fun _ => 0) ops n) := by
  constructor
  · intro node_load n h
    simp [decrement_node_load, h]
  · intro ops n
    exact applyLoadOps_nonneg ops (fun _ => 0) (fun m => le_refl 0) n

/-- C7: the admission gate with load-shedding probability 0 accepts every
initialize request, and with probability 1 rejects every request, for
every value of the uniform sample in [0,1). -/
theorem C7_admission_gate_extremes (u : ℚ) (h0 : 0 ≤ u) (h1 : u < 1) :
    admission_verdict 0 u = TaskStatus.accepted ∧
    admission_verdict 1 u = TaskStatus.rejected := by
  constructor
  · simp [admission_verdict, should_accept_task, h0]
  · simp [admission_verdict, should_accept_task, not_le.mpr h1]

/-- Witness for C7 at the concrete sample 1/2. -/
theorem C7_admission_gate_extremes_witness :
    admission_verdict 0 (1 / 2) = TaskStatus.accepted ∧
    admission_verdict 1 (1 / 2) = TaskStatus.rejected :=
  C7_admission_gate_extremes (1 / 2) (by norm_num) (by norm_num)

/-- C9: `initializeTraining` replies REJECTED both when the admission
gate rejects and when the gate accepts but the local model
initialization fails; it replies ACCEPTED exactly when the gate accepts
and the initialization succeeds, so a REJECTED reply does not
distinguish load shedding from initialization failure. -/
theorem C9_rejected_reply_ambiguous (load_probability u : ℚ) (s : Bool) :
    (¬ load_probability ≤ u →
        initializeTraining load_probability u s = TaskStatus.rejected) ∧
    (load_probability ≤ u →
        initializeTraining load_probability u false = TaskStatus.rejected) ∧
    (initializeTraining load_probability u s = TaskStatus.accepted ↔
        load_probability ≤ u ∧ s = true) := by
  refine ⟨fun hp => ?_, fun hp => ?_, ?_⟩
  · simp [initializeTraining, should_accept_task, hp]
  · simp [initializeTraining, should_accept_task, hp]
  · by_cases hp : load_probability ≤ u
    · cases s <;> simp [initializeTraining, should_accept_task, hp]
    · simp [initializeTraining, should_accept_task, hp]

/-- Entrywise reading of a scaled row (out-of-range entries read as 0 on
both sides). -/
theorem rowD_scale (row : List ℚ) (c : ℚ) (j : ℕ) :
    (row.map (fun x => c * x)).getD j 0 = c * row.getD j 0 := by
  induction row generalizing j with
  | nil => simp
  | cons a row ih =>
      cases j with
      | zero => simp
      | succ j => simpa using ih j

/-- Entrywise reading of a scaled matrix. -/
theorem matD_scale (g : Mat) (c : ℚ) (i j : ℕ) :
    ((scale_matricies g c).getD i []).getD j 0 = c * ((g.getD i []).getD j 0) := by
  unfold scale_matricies
  induction g generalizing i with
  | nil => simp
  | cons row g ih =>
      cases i with
      | zero => simpa using rowD_scale row c j
      | succ i => simpa using ih i

/-- Scaling the all-zero matrix yields it back. -/
theorem scale_zeros_like (g : Mat) (c : ℚ) :
    scale_matricies (zeros_like g) c = zeros_like g := by
  unfold scale_matricies zeros_like
  simp [List.map_map, Function.comp]

/-- Zeroing keeps the shape. -/
theorem mshape_zeros_like (g : Mat) : mshape (zeros_like g) = mshape g := by
  unfold mshape zeros_like
  simp [List.map_map, Function.comp]

/-- C4: `average(n)` scales the accumulated sum entrywise by
`1 / max(n, 1)` for every accumulator state and every integer job count;
in particular `reset()` followed by `average(n)` — `n = 0` included —
returns the all-zero matrix of the accumulator's shape, with no
division-by-zero fault, as on the concrete 2×2 accumulator. -/
theorem C4_average_guarded_scaling :
    (∀ (gradient : Mat) (num_jobs : ℤ) (i j : ℕ),
        ((SharedGradient.average gradient num_jobs).getD i []).getD j 0 =
          (1 / ((max num_jobs 1 : ℤ) : ℚ)) * ((gradient.getD i []).getD j 0)) ∧
    (∀ (gradient : Mat) (num_jobs : ℤ),
        SharedGradient.average (SharedGradient.reset gradient) num_jobs =
          zeros_like gradient ∧
        mshape (SharedGradient.average (SharedGradient.reset gradient) num_jobs) =
          mshape gradient) ∧
    SharedGradient.average (SharedGradient.reset [[1, 2], [3, 4]]) 0 =
      [[0, 0], [0, 0]] := by
  refine ⟨fun gradient num_jobs i j => ?_, fun gradient num_jobs => ⟨?_, ?_⟩, ?_⟩
  · exact matD_scale gradient _ i j
  · simp [SharedGradient.average, SharedGradient.reset, scale_zeros_like]
  · simp [SharedGradient.average, SharedGradient.reset, scale_zeros_like,
      mshape_zeros_like]
  · simp [SharedGradient.average, SharedGradient.reset, zeros_like, scale_matricies]

/-- A nonempty run of the round loop always leaves `val_error` assigned:
folding `train_loop_step` over a nonempty round list ends with
`some` validation error. -/
theorem train_loop_snd_isSome (validate : Mat → Mat → ℚ)
    (round_results : ℕ → List (Option (Mat × Mat))) :
    ∀ (l : List ℕ) (st : (Mat × Mat) × Option ℚ), l ≠ [] →
      ∃ q : ℚ, (l.foldl (train_loop_step validate round_results) st).2 = some q := by
  intro l
  induction l with
  | nil => intro st h; exact absurd rfl h
  | cons a l ih =>
      intro st _
      cases l with
      | nil =>
          exact ⟨(train_round validate st.1.1 st.1.2 (round_results a)).2, rfl⟩
      | cons b t =>
          simpa [List.foldl] using
            ih (train_loop_step validate round_results st a) (by simp)

/-- C10: after a successful model initialization, `train` called with
zero rounds raises UnboundLocalError (the local `val_error` is returned
without ever being assigned), while with any positive round count it
returns a final validation error. -/
theorem C10_zero_rounds_raises (validate : Mat → Mat → ℚ) (V W : Mat)
    (round_results : ℕ → List (Option (Mat × Mat))) :
    train validate true V W 0 round_results =
      Except.error PyError.unboundLocalError ∧
    ∀ rounds : ℕ, 1 ≤ rounds →
      ∃ val_error : ℚ,
        train validate true V W rounds round_results = Except.ok val_error := by
  constructor
  · rfl
  · intro rounds hr
    have hne : List.range rounds ≠ [] := by
      simp only [ne_eq, List.range_eq_nil]
      omega
    obtain ⟨q, hq⟩ := train_loop_snd_isSome validate round_results
      (List.range rounds) ((V, W), none) hne
    exact ⟨q, by simp [train, hq]⟩

/-- Adding the all-zero row of matching length changes nothing. -/
theorem rowAdd_zeros (row : List ℚ) :
    List.zipWith (· + ·) row (row.map fun _ => (0 : ℚ)) = row := by
  induction row with
  | nil => rfl
  | cons a row ih => simp only [List.map_cons, List.zipWith_cons_cons, add_zero, ih]

/-- Adding the all-zero matrix of matching shape changes nothing. -/
theorem matAdd_zeros_like (m : Mat) : matAdd m (zeros_like m) = m := by
  unfold matAdd zeros_like
  induction m with
  | nil => rfl
  | cons row m ih =>
      simp only [List.map_cons, List.zipWith_cons_cons, ih]
      exact congrArg (fun r => r :: m) (rowAdd_zeros row)

/-- A round in which every dispatched task failed or was rejected leaves
both accumulators exactly as reset. -/
theorem run_tasks_all_none (results : List (Option (Mat × Mat))) :
    ∀ sV sW : Mat, (∀ r ∈ results, r = none) → run_tasks results sV sW = (sV, sW) := by
  induction results with
  | nil => intro sV sW _; rfl
  | cons r results ih =>
      intro sV sW h
      have hr : r = none := h r (List.mem_cons_self r results)
      subst hr
      simpa [run_tasks, List.foldl] using
        ih sV sW (fun x hx => h x (List.mem_cons_of_mem none hx))

/-- C8: in the UPDATED phase, whatever averaged gradients arrive, if
either one's shape disagrees with the corresponding pre-round weight
shape, the update is skipped and the prior weights are preserved; and a
round in which every task was rejected or failed averages all-zero
gradients of matching shape, applies a no-op update, and returns the
prior weights together with the validation error of the unmodified
model. -/
theorem C8_shape_guard_preserves_weights (validate : Mat → Mat → ℚ)
    (V W : Mat) (results : List (Option (Mat × Mat))) :
    (∀ avg_gradient_V avg_gradient_W : Mat,
        ¬ (mshape avg_gradient_W = mshape W ∧ mshape avg_gradient_V = mshape V) →
        updated_phase V W avg_gradient_V avg_gradient_W = (V, W)) ∧
    ((∀ r ∈ results, r = none) →
        train_round validate V W results = ((V, W), validate V W)) := by
  constructor
  · intro avg_gradient_V avg_gradient_W h
    simp only [updated_phase, if_neg h]
  · intro h
    have hacc : run_tasks results (zeros_like V) (zeros_like W) =
        (zeros_like V, zeros_like W) :=
      run_tasks_all_none results (zeros_like V) (zeros_like W) h
    have havg : round_avg V W results = (zeros_like V, zeros_like W) := by
      simp [round_avg, hacc, SharedGradient.average, scale_zeros_like]
    have hupd : updated_phase V W (zeros_like V) (zeros_like W) = (V, W) := by
      simp only [updated_phase,
        if_pos (And.intro (mshape_zeros_like W) (mshape_zeros_like V)),
        update_weights, matAdd_zeros_like]
    simp only [train_round, havg, hupd]

/-- Witness for C8 at a concrete input: a 1×2 averaged gradient arriving
for a 1×1 weight matrix makes the UPDATED phase skip the update and keep
both prior weight matrices. -/
theorem C8_shape_guard_preserves_weights_witness :
    updated_phase [[(1 : ℚ)]] [[2]] [[3, 3]] [[4]] = ([[1]], [[2]]) :=
  (C8_shape_guard_preserves_weights (fun _ _ => 0) [[1]] [[2]] []).1
    [[3, 3]] [[4]] (by decide)

/-- Invariant behind the round barrier property: running the remaining
operations of a round trace takes each node's tracked count down by
exactly the number of that node's still-in-flight tasks, provided the
count dominates that number (so the decrement floor never fires). -/
theorem roundTrace_applyLoadOps {α : Type} [DecidableEq α]
    {pending inflight : List α} {ops : List (LoadOp α)}
    (ht : RoundTrace pending inflight ops) :
    ∀ node_load : α → ℤ, (∀ m, (inflight.count m : ℤ) ≤ node_load m) →
      ∀ n, applyLoadOps node_load ops n = node_load n - inflight.count n := by
  induction ht with
  | nil =>
      intro node_load h n
      simp [applyLoadOps]
  | start k pending inflight ops hmem hrec ih =>
      intro node_load h n
      have hpre : ∀ m, (((k :: inflight).count m : ℕ) : ℤ) ≤
          increment_node_load node_load k m := by
        intro m
        by_cases hm : m = k
        · subst hm
          have h1 := h m
          simp only [increment_node_load, if_pos rfl, List.count_cons_self]
          push_cast
          omega
        · have h1 := h m
          simp only [increment_node_load, if_neg hm]
          rw [List.count_cons_of_ne hm]
          exact h1
      have hres := ih (increment_node_load node_load k) hpre n
      simp only [applyLoadOps, applyLoadOp]
      rw [hres]
      by_cases hn : n = k
      · subst hn
        have h1 := h n
        simp only [increment_node_load, if_pos rfl, List.count_cons_self]
        push_cast
        omega
      · simp only [increment_node_load, if_neg hn]
        rw [List.count_cons_of_ne hn]
  | finish k pending inflight ops hmem hrec ih =>
      intro node_load h n
      have hk1 : 1 ≤ inflight.count k := List.count_pos_iff.mpr hmem
      have hpre : ∀ m, (((inflight.erase k).count m : ℕ) : ℤ) ≤
          decrement_node_load node_load k m := by
        intro m
        by_cases hm : m = k
        · subst hm
          have h1 := h m
          simp only [decrement_node_load, if_pos rfl, List.count_erase_self]
          omega
        · have h1 := h m
          simp only [decrement_node_load, if_neg hm]
          rw [List.count_erase_of_ne hm]
          exact h1
      have hres := ih (decrement_node_load node_load k) hpre n
      simp only [applyLoadOps, applyLoadOp]
      rw [hres]
      by_cases hn : n = k
      · subst hn
        have h1 := h n
        simp [decrement_node_load, List.count_erase_self]
        omega
      · simp only [decrement_node_load, if_neg hn]
        rw [List.count_erase_of_ne hn]

/-- C1: after a round's join barrier every node's tracked load equals its
pre-round count — any complete interleaving of the dispatch threads' load
operations restores the load mapping — and each dispatch thread on its
own leaves the load mapping unchanged on every exit path (success,
remote rejection, or exception), incrementing its node once on entry and
decrementing it once in the `finally` block. -/
theorem C1_round_load_restored (node_load : NodeAddress → ℤ)
    (tasks : List NodeAddress) (ops : List (LoadOp NodeAddress))
    (hpos : ∀ m, 0 ≤ node_load m) (ht : RoundTrace tasks [] ops) :
    (∀ n, applyLoadOps node_load ops n = node_load n) ∧
    (∀ (n : NodeAddress) (o : RemoteOutcome) (sV sW : Mat),
        (thread_func node_load n o sV sW).1 = node_load) := by
  constructor
  · intro n
    have h := roundTrace_applyLoadOps ht node_load
      (fun m => by simpa using hpos m) n
    simpa using h
  · intro n o sV sW
    have hdec : decrement_node_load (increment_node_load node_load n) n =
        node_load := by
      funext m
      simp only [decrement_node_load, increment_node_load]
      by_cases hm : m = n
      · have h1 := hpos m
        simp only [if_pos hm]
        omega
      · simp only [if_neg hm]
    cases o <;> simp [thread_func, hdec]

/-- Witness for C1 at a concrete input: the trace of a one-task round on
the all-zero load mapping restores the mapping. -/
theorem C1_round_load_restored_witness :
    applyLoadOps (fun _ : NodeAddress => 0)
      [LoadOp.inc ("n1", 9091), LoadOp.dec ("n1", 9091)] ("n1", 9091) = 0 := by
  have h0 : RoundTrace ([] : List NodeAddress) [] [] := RoundTrace.nil
  have h1 : RoundTrace ([] : List NodeAddress) [("n1", 9091)]
      [LoadOp.dec ("n1", 9091)] := by
    refine RoundTrace.finish _ _ _ _ (List.mem_cons_self _ _) ?_
    simpa using h0
  have ht : RoundTrace [(("n1", 9091) : NodeAddress)] []
      [LoadOp.inc ("n1", 9091), LoadOp.dec ("n1", 9091)] := by
    refine RoundTrace.start _ _ _ _ (List.mem_cons_self _ _) ?_
    simpa using h1
  exact (C1_round_load_restored (fun _ => 0) _ _ (fun m => le_refl 0) ht).1 _

/-- The scan of `min(node_load, key=node_load.get)` returns one of the
scanned keys. -/
theorem selectMinFrom_mem {α : Type} [DecidableEq α] (node_load : α → ℤ)
    (xs : List α) : ∀ b : α, selectMinFrom node_load b xs ∈ b :: xs := by
  induction xs with
  | nil => intro b; simp [selectMinFrom]
  | cons x xs ih =>
      intro b
      simp only [selectMinFrom]
      rcases List.mem_cons.mp (ih (if node_load x < node_load b then x else b))
        with h | h
      · rw [h]
        by_cases hx : node_load x < node_load b
        · simp [hx]
        · simp [hx]
      · exact List.mem_cons_of_mem b (List.mem_cons_of_mem x h)

/-- The scan returns a key of minimal load among all scanned keys. -/
theorem selectMinFrom_le {α : Type} [DecidableEq α] (node_load : α → ℤ)
    (xs : List α) : ∀ b : α, ∀ y ∈ b :: xs,
      node_load (selectMinFrom node_load b xs) ≤ node_load y := by
  induction xs with
  | nil =>
      intro b y hy
      rcases List.mem_cons.mp hy with rfl | h
      · exact le_refl _
      · simp at h
  | cons x xs ih =>
      intro b y hy
      have hb : node_load
          (selectMinFrom node_load (if node_load x < node_load b then x else b) xs) ≤
          node_load (if node_load x < node_load b then x else b) :=
        ih _ _ (List.mem_cons_self _ _)
      simp only [selectMinFrom]
      rcases List.mem_cons.mp hy with rfl | hy'
      · refine le_trans hb ?_
        by_cases hx : node_load x < node_load y
        · rw [if_pos hx]
          exact le_of_lt hx
        · rw [if_neg hx]
      · rcases List.mem_cons.mp hy' with rfl | hy''
        · refine le_trans hb ?_
          by_cases hx : node_load y < node_load b
          · rw [if_pos hx]
          · rw [if_neg hx]
            exact not_lt.mp hx
        · exact ih _ y (List.mem_cons_of_mem _ hy'')

/-- Ties are broken by iteration order: the scan returns the first
scanned key whose load attains the minimum. -/
theorem selectMinFrom_find {α : Type} [DecidableEq α] (node_load : α → ℤ)
    (xs : List α) : ∀ b : α,
      (b :: xs).find? (fun y =>
          decide (node_load y ≤ node_load (selectMinFrom node_load b xs))) =
        some (selectMinFrom node_load b xs) := by
  induction xs with
  | nil =>
      intro b
      simp [selectMinFrom]
  | cons x xs ih =>
      intro b
      by_cases hx : node_load x < node_load b
      · simp only [selectMinFrom, if_pos hx]
        have hmx : node_load (selectMinFrom node_load x xs) ≤ node_load x :=
          selectMinFrom_le node_load xs x x (List.mem_cons_self x xs)
        rw [List.find?_cons_of_neg]
        · exact ih x
        · simp only [decide_eq_true_eq]
          exact not_le.mpr (lt_of_le_of_lt hmx hx)
      · simp only [selectMinFrom, if_neg hx]
        by_cases hpb : node_load b ≤ node_load (selectMinFrom node_load b xs)
        · have hb : some b = some (selectMinFrom node_load b xs) := by
            rw [← ih b, List.find?_cons_of_pos]
            simp only [decide_eq_true_eq]
            exact hpb
          rw [List.find?_cons_of_pos, hb]
          simp only [decide_eq_true_eq]
          exact hpb
        · have htail : xs.find? (fun y =>
              decide (node_load y ≤ node_load (selectMinFrom node_load b xs))) =
              some (selectMinFrom node_load b xs) := by
            rw [← ih b, List.find?_cons_of_neg]
            simp only [decide_eq_true_eq]
            exact hpb
          rw [List.find?_cons_of_neg, List.find?_cons_of_neg]
          · exact htail
          · simp only [decide_eq_true_eq]
            intro hle
            exact hpb (le_trans (not_lt.mp hx) hle)
          · simp only [decide_eq_true_eq]
            exact hpb

/-- C5: under the LEAST_LOADED policy (any policy value other than 1),
selection over a nonempty registry returns a node of minimal tracked
load, ties broken by registry iteration order (the first node attaining
the minimum). -/
theorem C5_least_loaded_selects_min (node_load : NodeAddress → ℤ)
    (x : NodeAddress) (xs : List NodeAddress) :
    select_compute_node 0 (x :: xs) node_load 0 =
      Except.ok (selectMinFrom node_load x xs) ∧
    selectMinFrom node_load x xs ∈ x :: xs ∧
    (∀ y ∈ x :: xs, node_load (selectMinFrom node_load x xs) ≤ node_load y) ∧
    (x :: xs).find? (fun y =>
        decide (node_load y ≤ node_load (selectMinFrom node_load x xs))) =
      some (selectMinFrom node_load x xs) :=
  ⟨rfl, selectMinFrom_mem node_load xs x, selectMinFrom_le node_load xs x,
    selectMinFrom_find node_load xs x⟩

/-- Witness for C5 at the spec's concrete input: with counts A:3, B:1,
C:2 the LEAST_LOADED selection returns B. -/
theorem C5_least_loaded_selects_min_witness :
    select_compute_node 0 [(("A", 1) : NodeAddress), ("B", 2), ("C", 3)]
      (fun n => if n.2 = 1 then 3 else if n.2 = 2 then 1 else 2) 0 =
      Except.ok (("B", 2) : NodeAddress) := by
  rfl

end DistPA1
